import Mathlib

/-!
Verification of the `Mailbox` component
(`flink-ai-flow/lib/airflow/airflow/utils/mailbox.py`).

The Python class is shallowly embedded: the in-memory `queue.Queue` becomes a
`List` held in the `Mailbox` record, the SQLAlchemy session/store becomes an
explicit `DB` value threaded through the operations together with a `Session`
record that separates the pending (uncommitted) view from the base view, and
exceptions become `Except` / `Option` results.  A `fail` flag on the
persistence path models a store outage at commit time.
-/

/-- Modelled from the spec: `BaseEvent` of `notification_service.base_notification`
is not under `src/`; the spec describes an event as
`{key, type, value (payload), create_time (ms, wall clock), version (monotonic integer, optional)}`.
`create_time` and `version` are optional, matching the code's
`message.version is not None and message.create_time is not None` checks. -/
structure BaseEvent where
  key : String
  event_type : String
  value : String
  create_time : Option Int
  version : Option Int
deriving DecidableEq, Repr

/-- A Python value that may be handed to `send_message` or stored in a pickled
payload: a `BaseEvent`, the value `None`, or some other picklable object. -/
inductive Msg where
  | baseEvent (e : BaseEvent)
  | pyNone
  | other (s : String)
deriving DecidableEq, Repr

/-- A byte string as produced by `pickle.dumps`, or garbage bytes that make
`pickle.loads` raise. -/
inductive Bytes where
  | pickled (m : Msg)
  | corrupt (s : String)
deriving DecidableEq, Repr

/-- `pickle.dumps`. -/
def pickle_dumps (m : Msg) : Bytes := .pickled m

/-- `pickle.loads`; `none` models the raised exception on corrupt bytes. -/
def pickle_loads : Bytes → Option Msg
  | .pickled m => some m
  | .corrupt _ => none

/-- Modelled from the spec: `IdentifiedMessage` of `airflow.models.message`
(not under `src/`) is `{id, serialized_payload}`, the only representation
placed in the in-memory queue. -/
structure IdentifiedMessage where
  msg_id : Nat
  serialized_message : Bytes
deriving DecidableEq, Repr

/-- Modelled from the spec: envelope states; only `QUEUED` is observable in
the available code, the enumeration is an extension point. -/
inductive MessageState where
  | queued
deriving DecidableEq, Repr

/-- Modelled from the spec: the persisted envelope row of `airflow.models.message`
(not under `src/`): `{id (store-assigned), serialized_payload, state,
scheduling_job_id, queue_time}`; `Message(message)` serializes the message,
and `message_obj.data` is the serialized payload that `get_message` later
feeds to `pickle.loads`. -/
structure MessageRow where
  id : Nat
  data : Bytes
  state : MessageState
  scheduling_job_id : Option Nat
  queue_time : Int
deriving DecidableEq, Repr

/-- Modelled from the spec: the `EventProgress` row of
`airflow.models.event_progress` (not under `src/`):
`{scheduling_job_id (unique key), last_event_time, last_event_version}`. -/
structure EventProgress where
  scheduling_job_id : Option Nat
  last_event_time : Int
  last_event_version : Int
deriving DecidableEq, Repr

/-- The external transactional store: progress rows keyed by
`scheduling_job_id`, envelope rows, and the autoincrement counter that
assigns envelope ids at insert. -/
structure DB where
  progress : List EventProgress
  messages : List MessageRow
  next_id : Nat
deriving DecidableEq, Repr

/-- `session.merge` on an `EventProgress` row: upsert keyed by
`scheduling_job_id` (update the row with that key if present, insert
otherwise). -/
def mergeProgress (p : EventProgress) : List EventProgress → List EventProgress
  | [] => [p]
  | q :: rest =>
    if q.scheduling_job_id = p.scheduling_job_id then p :: rest
    else q :: mergeProgress p rest

/-- Read a job's progress row as a `(last_event_time, last_event_version)`
pair. -/
def lookupProgress (jobId : Option Nat) : List EventProgress → Option (Int × Int)
  | [] => none
  | q :: rest =>
    if q.scheduling_job_id = jobId then some (q.last_event_time, q.last_event_version)
    else lookupProgress jobId rest

/-- The store outage raised by the persistence layer. -/
inductive StoreFailure where
  | storeFailure
deriving DecidableEq, Repr

/-- A SQLAlchemy session as used under `provide_session`: `base` is the
committed state, `pending` accumulates the transaction's writes.  `commit`
atomically publishes `pending` (or raises when the store is down);
`rollback` discards `pending`. -/
structure Session where
  base : DB
  pending : DB
deriving DecidableEq, Repr

/-- Open a session on the current committed state. -/
def Session.begin (db : DB) : Session := ⟨db, db⟩

/-- `session.merge(progress)`: buffer the progress upsert. -/
def Session.merge (s : Session) (p : EventProgress) : Session :=
  { s with pending := { s.pending with progress := mergeProgress p s.pending.progress } }

/-- `session.add(message_obj)`: buffer the envelope insert; the store assigns
`next_id` as the row id. -/
def Session.add (s : Session) (m : MessageRow) : Session :=
  { s with pending := { s.pending with
      messages := s.pending.messages ++ [m]
      next_id := s.pending.next_id + 1 } }

/-- `session.commit()`: publish the pending writes atomically, or raise on a
store outage. -/
def Session.commit (s : Session) (fail : Bool) : Except StoreFailure DB :=
  if fail then .error .storeFailure else .ok s.pending

/-- `session.rollback()`: discard the pending writes, keeping the base state. -/
def Session.rollback (s : Session) : DB := s.base

/-- The `Mailbox` instance: the in-memory queue (front = head of the list,
`queue.put` appends at the tail) and the job binding. -/
structure Mailbox where
  queue : List IdentifiedMessage
  scheduling_job_id : Option Nat
deriving DecidableEq, Repr

/-- `Mailbox.__init__`: empty queue, no job binding. -/
def Mailbox.init : Mailbox := ⟨[], none⟩

/-- `Mailbox.set_scheduling_job_id`. -/
def Mailbox.set_scheduling_job_id (mb : Mailbox) (jobId : Nat) : Mailbox :=
  { mb with scheduling_job_id := some jobId }

/-- `Mailbox._save_message_to_db`: inside one session, upsert the
`EventProgress` row when the message is a `BaseEvent` carrying both `version`
and `create_time`, insert the envelope row with `state = QUEUED` and
`queue_time = now`, then commit; on failure roll back and re-raise.  Returns
the `IdentifiedMessage` built from the committed envelope, paired with the
store state seen by the caller afterwards. -/
def Mailbox.save_message_to_db (mb : Mailbox) (message : Msg) (now : Int)
    (db : DB) (fail : Bool) : Except StoreFailure IdentifiedMessage × DB :=
  let s := Session.begin db
  let s :=
    match message with
    | .baseEvent e =>
      match e.version, e.create_time with
      | some v, some t =>
        s.merge { scheduling_job_id := mb.scheduling_job_id
                  last_event_time := t
                  last_event_version := v }
      | _, _ => s
    | _ => s
  let row : MessageRow :=
    { id := s.pending.next_id
      data := pickle_dumps message
      state := .queued
      scheduling_job_id := mb.scheduling_job_id
      queue_time := now }
  let s := s.add row
  match s.commit fail with
  | .ok db2 => (.ok ⟨row.id, row.data⟩, db2)
  | .error e => (.error e, s.rollback)

/-- `Mailbox.send_message`: persist, then push the `IdentifiedMessage` to the
in-memory queue.  The Python method has no `return` statement, so the value
handed back to the caller on success is `None`, modelled by the
`Option IdentifiedMessage` component being `none`.  On a persistence failure
the exception propagates before `queue.put` runs, so the mailbox is returned
unchanged together with the rolled-back store. -/
def Mailbox.send_message (mb : Mailbox) (message : Msg) (now : Int)
    (db : DB) (fail : Bool) :
    Except StoreFailure (Option IdentifiedMessage) × Mailbox × DB :=
  match mb.save_message_to_db message now db fail with
  | (.ok identified_message, db2) =>
    (.ok none, { mb with queue := mb.queue ++ [identified_message] }, db2)
  | (.error e, db2) => (.error e, mb, db2)

/-- `Mailbox.send_identified_message`: `self.queue.put(message)`; the method
never touches the store (it is not passed and not returned). -/
def Mailbox.send_identified_message (mb : Mailbox) (message : IdentifiedMessage) :
    Mailbox :=
  { mb with queue := mb.queue ++ [message] }

/-- `Mailbox.get_message`: blocking pop (`self.queue.get()`), then
`pickle.loads`; a deserialization failure is caught, logged and turned into
the return value `None` (`Msg.pyNone`).  The outer `none` models the call
never returning because the queue is empty (the blocking get suspends the
caller indefinitely). -/
def Mailbox.get_message (mb : Mailbox) : Option (Msg × Mailbox) :=
  match mb.queue with
  | [] => none
  | im :: rest =>
    match pickle_loads im.serialized_message with
    | some m => some (m, { mb with queue := rest })
    | none => some (.pyNone, { mb with queue := rest })

/-- The errors `queue.Queue.get(timeout=t)` can raise: `Empty` after the wait
expires on an empty queue, and `ValueError` when the timeout is negative
(CPython raises it before looking at the queue). -/
inductive QueueError where
  | empty
  | valueError
deriving DecidableEq, Repr

/-- `queue.Queue.get(timeout=t)`: with a negative timeout raise `ValueError`;
on an empty queue raise `Empty` once the wait expires; otherwise pop the
head. -/
def queueGetTimeout (timeout : Int) (q : List IdentifiedMessage) :
    Except QueueError (IdentifiedMessage × List IdentifiedMessage) :=
  if timeout < 0 then .error .valueError
  else
    match q with
    | [] => .error .empty
    | im :: rest => .ok (im, rest)

/-- `Mailbox.get_message_with_timeout`: `self.queue.get(timeout=timeout)`
inside a bare `except Exception` that converts every failure, the timeout
included, into the return value `None`. -/
def Mailbox.get_message_with_timeout (mb : Mailbox) (timeout : Int) :
    Option IdentifiedMessage × Mailbox :=
  match queueGetTimeout timeout mb.queue with
  | .ok (im, rest) => (some im, { mb with queue := rest })
  | .error _ => (none, mb)

/-- `Mailbox.get_identified_message`: `return self.get_message_with_timeout(timeout=1)`. -/
def Mailbox.get_identified_message (mb : Mailbox) :
    Option IdentifiedMessage × Mailbox :=
  mb.get_message_with_timeout 1

/-- `Mailbox.length`: `self.queue.qsize()`. -/
def Mailbox.length (mb : Mailbox) : Nat := mb.queue.length

/-! ### Shared lemmas -/

/-- On the success path (`fail = false`), `send_message` appends to the queue
the `IdentifiedMessage` built from the committed envelope (id = the store's
`next_id`, payload = the pickled message), returns `None`, and the committed
store holds the new envelope row at the tail with the counter advanced. -/
theorem send_message_commit_shape (mb : Mailbox) (message : Msg) (now : Int)
    (db : DB) :
    ∃ db2 : DB,
      mb.send_message message now db false =
        (.ok none,
         { mb with queue := mb.queue ++ [⟨db.next_id, pickle_dumps message⟩] },
         db2) ∧
      db2.messages = db.messages ++
        [{ id := db.next_id, data := pickle_dumps message, state := .queued,
           scheduling_job_id := mb.scheduling_job_id, queue_time := now }] ∧
      db2.next_id = db.next_id + 1 := by
  cases message with
  | baseEvent e =>
    rcases e with ⟨k, ty, v, ct, ver⟩
    cases ct <;> cases ver <;>
      exact ⟨_, rfl, rfl, rfl⟩
  | pyNone => exact ⟨_, rfl, rfl, rfl⟩
  | other s => exact ⟨_, rfl, rfl, rfl⟩

/-! ### Claims -/

/-- C1 (amended): for every event accepted without a persistence failure,
`send_message` constructs the `IdentifiedMessage {id, serialized_payload}`
from the committed envelope and appends it to the in-memory queue, but the
call's result handed to the caller is `None`, not that `IdentifiedMessage`
(the Python method has no `return` statement). -/
theorem send_message_enqueues_identified_message (mb : Mailbox) (message : Msg)
    (now : Int) (db : DB) :
    ∃ db2 : DB,
      mb.send_message message now db false =
        (.ok none,
         { mb with queue := mb.queue ++ [⟨db.next_id, pickle_dumps message⟩] },
         db2) ∧
      db2.messages = db.messages ++
        [{ id := db.next_id, data := pickle_dumps message, state := .queued,
           scheduling_job_id := mb.scheduling_job_id, queue_time := now }] := by
  obtain ⟨db2, h1, h2, _⟩ := send_message_commit_shape mb message now db
  exact ⟨db2, h1, h2⟩

/-- C1 counterexample: a concrete event is accepted without a persistence
failure, the `IdentifiedMessage` built from the committed envelope sits in
the queue, yet the value `send_message` returns to the caller is `None`,
which differs from that `IdentifiedMessage`. -/
theorem send_message_returns_none_counterexample :
    (Mailbox.send_message ⟨[], some 1⟩
        (.baseEvent ⟨"k", "ty", "v", some 100, some 1⟩) 5 ⟨[], [], 0⟩ false).1
      = .ok none ∧
    (Mailbox.send_message ⟨[], some 1⟩
        (.baseEvent ⟨"k", "ty", "v", some 100, some 1⟩) 5 ⟨[], [], 0⟩ false).2.1.queue
      = [⟨0, pickle_dumps (.baseEvent ⟨"k", "ty", "v", some 100, some 1⟩)⟩] ∧
    (Except.ok (none : Option IdentifiedMessage) : Except StoreFailure (Option IdentifiedMessage)) ≠
      Except.ok (some ⟨0, pickle_dumps (.baseEvent ⟨"k", "ty", "v", some 100, some 1⟩)⟩) := by
  refine ⟨rfl, rfl, ?_⟩
  intro h
  exact Option.noConfusion (Except.ok.inj h)

/-- C2: when the persistence transaction fails, `send_message` raises the
`StoreFailure` to the caller, the store is fully rolled back (neither the
envelope row nor the `EventProgress` row is committed), and the in-memory
queue is untouched (the exception propagates before `queue.put`). -/
theorem send_message_store_failure_rollback (mb : Mailbox) (message : Msg)
    (now : Int) (db : DB) :
    mb.send_message message now db true = (.error .storeFailure, mb, db) := by
  cases message with
  | baseEvent e =>
    rcases e with ⟨k, ty, v, ct, ver⟩
    cases ct <;> cases ver <;> rfl
  | pyNone => rfl
  | other s => rfl

/-- C7: `get_identified_message` is extensionally the same operation as
`get_message_with_timeout` at timeout 1: on every queue state it returns the
identical result — the popped head when one is available, and `None` on an
empty queue after the wait expires. -/
theorem get_identified_message_eq_timeout_one (mb : Mailbox) :
    mb.get_identified_message = mb.get_message_with_timeout 1 ∧
    (mb.queue = [] → mb.get_identified_message = (none, mb)) ∧
    (∀ im rest, mb.queue = im :: rest →
      mb.get_identified_message = (some im, { mb with queue := rest })) := by
  refine ⟨rfl, ?_, ?_⟩
  · intro h
    simp [Mailbox.get_identified_message, Mailbox.get_message_with_timeout,
          queueGetTimeout, h]
  · intro im rest h
    simp [Mailbox.get_identified_message, Mailbox.get_message_with_timeout,
          queueGetTimeout, h]

/-- C7 witness: the equivalence evaluated on a concrete empty-queue mailbox. -/
theorem get_identified_message_eq_timeout_one_witness :
    Mailbox.get_identified_message ⟨[], none⟩ = (none, (⟨[], none⟩ : Mailbox)) :=
  (get_identified_message_eq_timeout_one ⟨[], none⟩).2.1 rfl

/-- C9: `send_identified_message` takes no store argument at all (no envelope
insert, no ledger write, no transaction); its entire effect is to append the
message at the queue's tail, leaving the existing queue prefix and the job
binding unchanged. -/
theorem send_identified_message_pure_append (mb : Mailbox) (im : IdentifiedMessage) :
    mb.send_identified_message im =
      { queue := mb.queue ++ [im], scheduling_job_id := mb.scheduling_job_id } := rfl

/-- C10: the `None` result of `get_message` is ambiguous: a queued message
whose payload is the pickling of `None` deserializes successfully to `None`,
and `get_message` returns exactly the same result for it as for a message
with a corrupt payload, on every surrounding queue state. -/
theorem get_message_none_ambiguous :
    ∃ imNone imBad : IdentifiedMessage,
      pickle_loads imNone.serialized_message = some .pyNone ∧
      pickle_loads imBad.serialized_message = none ∧
      ∀ (rest : List IdentifiedMessage) (jobId : Option Nat),
        Mailbox.get_message ⟨imNone :: rest, jobId⟩ = some (.pyNone, ⟨rest, jobId⟩) ∧
        Mailbox.get_message ⟨imBad :: rest, jobId⟩ = some (.pyNone, ⟨rest, jobId⟩) :=
  ⟨⟨1, pickle_dumps .pyNone⟩, ⟨2, .corrupt "x"⟩, rfl, rfl,
    fun _ _ => ⟨rfl, rfl⟩⟩

/-- C3: for every event, the `EventProgress` row for the bound job is
upserted with the event's `(create_time, version)` exactly when the event
carries both fields, and that upsert commits in the same transaction as the
envelope insert: on failure neither is recorded, on success the envelope is
appended and the ledger is updated precisely in the qualifying case. -/
theorem progress_upsert_iff_qualifying (mb : Mailbox) (e : BaseEvent)
    (now : Int) (db : DB) (fail : Bool) :
    (fail = true →
      mb.send_message (.baseEvent e) now db fail = (.error .storeFailure, mb, db)) ∧
    (fail = false →
      ∃ db2 : DB,
        mb.send_message (.baseEvent e) now db fail =
          (.ok none,
           { mb with queue := mb.queue ++ [⟨db.next_id, pickle_dumps (.baseEvent e)⟩] },
           db2) ∧
        db2.messages = db.messages ++
          [{ id := db.next_id, data := pickle_dumps (.baseEvent e), state := .queued,
             scheduling_job_id := mb.scheduling_job_id, queue_time := now }] ∧
        (∀ t v, e.create_time = some t → e.version = some v →
          db2.progress = mergeProgress ⟨mb.scheduling_job_id, t, v⟩ db.progress) ∧
        ((e.create_time = none ∨ e.version = none) → db2.progress = db.progress)) := by
  constructor
  · intro hf; subst hf
    rcases e with ⟨k, ty, v, ct, ver⟩
    cases ct <;> cases ver <;> rfl
  · intro hf; subst hf
    rcases e with ⟨k, ty, v, ct, ver⟩
    cases ct with
    | none =>
      cases ver <;>
        exact ⟨_, rfl, rfl, fun t w ht hw => Option.noConfusion ht, fun _ => rfl⟩
    | some t0 =>
      cases ver with
      | none =>
        exact ⟨_, rfl, rfl, fun t w ht hw => Option.noConfusion hw, fun _ => rfl⟩
      | some v0 =>
        refine ⟨_, rfl, rfl, fun t w ht hw => ?_, fun h => ?_⟩
        · cases Option.some.inj ht
          cases Option.some.inj hw
          rfl
        · rcases h with h | h <;> exact Option.noConfusion h

/-- C3 witness: the theorem evaluated on a concrete qualifying event, with
the success and failure hypotheses discharged. -/
theorem progress_upsert_iff_qualifying_witness :
    Mailbox.send_message ⟨[], some 7⟩
        (.baseEvent ⟨"a", "ty", "pl", some 100, some 3⟩) 9 ⟨[], [], 0⟩ true
      = (.error .storeFailure, (⟨[], some 7⟩ : Mailbox), (⟨[], [], 0⟩ : DB)) ∧
    ∃ db2 : DB,
      Mailbox.send_message ⟨[], some 7⟩
          (.baseEvent ⟨"a", "ty", "pl", some 100, some 3⟩) 9 ⟨[], [], 0⟩ false =
        (.ok none,
         { queue := [⟨0, pickle_dumps (.baseEvent ⟨"a", "ty", "pl", some 100, some 3⟩)⟩],
           scheduling_job_id := some 7 },
         db2) ∧
      db2.progress = mergeProgress ⟨some 7, 100, 3⟩ [] := by
  have h := progress_upsert_iff_qualifying ⟨[], some 7⟩
    ⟨"a", "ty", "pl", some 100, some 3⟩ 9 ⟨[], [], 0⟩
  constructor
  · exact (h true).1 rfl
  · obtain ⟨db2, h1, _, h3, _⟩ := (h false).2 rfl
    exact ⟨db2, h1, h3 100 3 rfl rfl⟩

/-- C5: `get_message_with_timeout` never raises: it is a total function, on
an empty queue it returns the sentinel `None` leaving the mailbox unchanged
(for every timeout value, the negative ones included), and every failure of
the underlying `queue.get` — `Empty` on expiry as well as `ValueError` — is
converted to `None`. -/
theorem get_message_with_timeout_never_raises (mb : Mailbox) (timeout : Int) :
    (mb.queue = [] → mb.get_message_with_timeout timeout = (none, mb)) ∧
    (∀ err, queueGetTimeout timeout mb.queue = .error err →
      mb.get_message_with_timeout timeout = (none, mb)) := by
  constructor
  · intro h
    by_cases hc : timeout < 0 <;>
      simp [Mailbox.get_message_with_timeout, queueGetTimeout, h, hc]
  · intro err h
    simp [Mailbox.get_message_with_timeout, h]

/-- C5 witness: concrete empty-queue mailbox, timeout 1 and timeout failure. -/
theorem get_message_with_timeout_never_raises_witness :
    (Mailbox.queue ⟨[], none⟩ = []) ∧
    Mailbox.get_message_with_timeout ⟨[], none⟩ 1 = (none, (⟨[], none⟩ : Mailbox)) :=
  ⟨rfl, (get_message_with_timeout_never_raises ⟨[], none⟩ 1).1 rfl⟩

/-- C6: when the head of the queue has a payload on which `pickle.loads`
raises, `get_message` does not raise: it returns `None`, the corrupt message
is dropped (the queue moves past it, it is never re-enqueued), and the
remaining messages are left intact in order. -/
theorem get_message_corrupt_payload_dropped (mb : Mailbox)
    (im : IdentifiedMessage) (rest : List IdentifiedMessage)
    (hq : mb.queue = im :: rest)
    (hbad : pickle_loads im.serialized_message = none) :
    mb.get_message = some (.pyNone, { mb with queue := rest }) := by
  simp [Mailbox.get_message, hq, hbad]

/-- C6 witness: a concrete corrupt head followed by a healthy message; the
corrupt one is dropped and the healthy one survives untouched. -/
theorem get_message_corrupt_payload_dropped_witness :
    (Mailbox.queue ⟨[⟨3, .corrupt "z"⟩, ⟨4, pickle_dumps .pyNone⟩], none⟩
      = ⟨3, .corrupt "z"⟩ :: [⟨4, pickle_dumps .pyNone⟩]) ∧
    pickle_loads (Bytes.corrupt "z") = none ∧
    Mailbox.get_message ⟨[⟨3, .corrupt "z"⟩, ⟨4, pickle_dumps .pyNone⟩], none⟩
      = some (.pyNone, (⟨[⟨4, pickle_dumps .pyNone⟩], none⟩ : Mailbox)) :=
  ⟨rfl, rfl,
    get_message_corrupt_payload_dropped
      ⟨[⟨3, .corrupt "z"⟩, ⟨4, pickle_dumps .pyNone⟩], none⟩
      ⟨3, .corrupt "z"⟩ [⟨4, pickle_dumps .pyNone⟩] rfl rfl⟩

/-! ### Ledger monotonicity machinery -/

/-- Componentwise order on `(last_event_time, last_event_version)` pairs. -/
def pairLe (p q : Int × Int) : Prop := p.1 ≤ q.1 ∧ p.2 ≤ q.2

instance : DecidableRel pairLe := fun p q =>
  inferInstanceAs (Decidable (p.1 ≤ q.1 ∧ p.2 ≤ q.2))

/-- Order on optional ledger rows: an absent row is below everything (row
creation is not a decrease), present rows compare componentwise. -/
def optLe : Option (Int × Int) → Option (Int × Int) → Prop
  | none, _ => True
  | some _, none => False
  | some p, some q => pairLe p q

instance : DecidableRel optLe := fun a b =>
  match a, b with
  | none, _ => isTrue trivial
  | some _, none => isFalse id
  | some p, some q => inferInstanceAs (Decidable (pairLe p q))

/-- The `(create_time, version)` pair an event stamps into the ledger
(meaningful when both fields are present). -/
def pairOf (e : BaseEvent) : Int × Int := (e.create_time.getD 0, e.version.getD 0)

/-- The successive committed ledger rows of the bound job observed after each
`send_message` in a sequence of sends by one producer (store healthy
throughout). -/
def ledgerTrajectory (now : Int) : Mailbox → DB → List Msg → List (Option (Int × Int))
  | _, _, [] => []
  | mb, db, m :: ms =>
    match mb.send_message m now db false with
    | (.ok _, mb2, db2) =>
      lookupProgress mb.scheduling_job_id db2.progress :: ledgerTrajectory now mb2 db2 ms
    | (.error _, _, _) => []

/-- Upserting a row and reading it back by the same key yields that row's
pair. -/
theorem lookupProgress_mergeProgress (jobId : Option Nat) (t v : Int)
    (l : List EventProgress) :
    lookupProgress jobId (mergeProgress ⟨jobId, t, v⟩ l) = some (t, v) := by
  induction l with
  | nil => simp [mergeProgress, lookupProgress]
  | cons q rest ih =>
    by_cases h : q.scheduling_job_id = jobId
    · simp [mergeProgress, lookupProgress, h]
    · simp [mergeProgress, lookupProgress, h, ih]

/-- A qualifying event (both `create_time` and `version` present) commits the
progress upsert together with the envelope insert and appends the identified
message to the queue. -/
theorem send_message_qualifying (mb : Mailbox) (e : BaseEvent) (now t v : Int)
    (db : DB) (ht : e.create_time = some t) (hv : e.version = some v) :
    mb.send_message (.baseEvent e) now db false =
      (.ok none,
       { mb with queue := mb.queue ++ [⟨db.next_id, pickle_dumps (.baseEvent e)⟩] },
       { progress := mergeProgress ⟨mb.scheduling_job_id, t, v⟩ db.progress,
         messages := db.messages ++
           [{ id := db.next_id, data := pickle_dumps (.baseEvent e), state := .queued,
              scheduling_job_id := mb.scheduling_job_id, queue_time := now }],
         next_id := db.next_id + 1 }) := by
  simp [Mailbox.send_message, Mailbox.save_message_to_db, Session.begin,
        Session.merge, Session.add, Session.commit, ht, hv]

/-- Along a healthy-store run of qualifying events, the observed ledger rows
are exactly the events' `(create_time, version)` pairs, in order. -/
theorem ledgerTrajectory_qualifying (now : Int) :
    ∀ (es : List BaseEvent) (mb : Mailbox) (db : DB),
      (∀ e ∈ es, e.create_time.isSome ∧ e.version.isSome) →
      ledgerTrajectory now mb db (es.map Msg.baseEvent) = (es.map pairOf).map some := by
  intro es
  induction es with
  | nil => intro mb db _; rfl
  | cons e rest ih =>
    intro mb db h
    obtain ⟨ht, hv⟩ := h e (List.mem_cons_self e rest)
    obtain ⟨t, ht2⟩ := Option.isSome_iff_exists.mp ht
    obtain ⟨v, hv2⟩ := Option.isSome_iff_exists.mp hv
    have hsend := send_message_qualifying mb e now t v db ht2 hv2
    simp only [List.map_cons, ledgerTrajectory, hsend]
    rw [lookupProgress_mergeProgress,
        ih _ _ (fun x hx => h x (List.mem_cons_of_mem e hx))]
    simp [pairOf, ht2, hv2]

/-- C4 (amended): provided the single producer's qualifying events carry
non-decreasing `(create_time, version)` pairs — which the spec's source
contract guarantees via strictly increasing versions — and the job's row is
initially absent, the stored ledger row never decreases across the run;
moreover after each successful `send_message` of an event with `(t, v)` the
row equals `(t, v)` exactly, so `last_event_time ≥ t` and
`last_event_version ≥ v` hold for the event just sent.  Without the
monotone-input hypothesis the code's unconditional `session.merge` overwrite
makes the row follow the events even downwards. -/
theorem ledger_monotone_single_producer (mb : Mailbox) (now : Int) (db : DB)
    (es : List BaseEvent)
    (hq : ∀ e ∈ es, e.create_time.isSome ∧ e.version.isSome)
    (hmono : List.Chain' pairLe (es.map pairOf))
    (hfresh : lookupProgress mb.scheduling_job_id db.progress = none) :
    ledgerTrajectory now mb db (es.map Msg.baseEvent) = (es.map pairOf).map some ∧
    List.Chain' optLe
      (lookupProgress mb.scheduling_job_id db.progress ::
        ledgerTrajectory now mb db (es.map Msg.baseEvent)) := by
  have htraj := ledgerTrajectory_qualifying now es mb db hq
  refine ⟨htraj, ?_⟩
  rw [htraj, hfresh, List.chain'_cons']
  refine ⟨fun y _ => trivial, ?_⟩
  rw [List.chain'_map]
  exact hmono.imp fun a b h => h

/-- C4 counterexample: one producer bound to job 1 sends a qualifying event
with pair `(200, 2)` and then one with pair `(100, 1)`; the stored row moves
from `(200, 2)` down to `(100, 1)`, so the ledger row does decrease for this
sequence, contradicting the claim's unconditional monotonicity. -/
theorem ledger_decreases_counterexample :
    ledgerTrajectory 0 ⟨[], some 1⟩ ⟨[], [], 0⟩
      [Msg.baseEvent ⟨"a", "ty", "x", some 200, some 2⟩,
       Msg.baseEvent ⟨"b", "ty", "y", some 100, some 1⟩]
    = [some (200, 2), some (100, 1)] ∧
    ¬ optLe (some (200, 2)) (some (100, 1)) :=
  ⟨rfl, by decide⟩

/-- C4 witness: the amended theorem evaluated on a concrete increasing
two-event run. -/
theorem ledger_monotone_single_producer_witness :
    (∀ e ∈ ([⟨"a", "ty", "x", some 100, some 1⟩,
             ⟨"b", "ty", "y", some 200, some 2⟩] : List BaseEvent),
        e.create_time.isSome ∧ e.version.isSome) ∧
    List.Chain' pairLe
      (([⟨"a", "ty", "x", some 100, some 1⟩,
         ⟨"b", "ty", "y", some 200, some 2⟩] : List BaseEvent).map pairOf) ∧
    lookupProgress (some 1) ([] : List EventProgress) = none ∧
    (ledgerTrajectory 0 ⟨[], some 1⟩ ⟨[], [], 0⟩
        (([⟨"a", "ty", "x", some 100, some 1⟩,
           ⟨"b", "ty", "y", some 200, some 2⟩] : List BaseEvent).map Msg.baseEvent)
      = (([⟨"a", "ty", "x", some 100, some 1⟩,
           ⟨"b", "ty", "y", some 200, some 2⟩] : List BaseEvent).map pairOf).map some ∧
     List.Chain' optLe
       (lookupProgress (some 1) ([] : List EventProgress) ::
         ledgerTrajectory 0 ⟨[], some 1⟩ ⟨[], [], 0⟩
           (([⟨"a", "ty", "x", some 100, some 1⟩,
              ⟨"b", "ty", "y", some 200, some 2⟩] : List BaseEvent).map Msg.baseEvent))) :=
  have hchain : List.Chain' pairLe
      (([⟨"a", "ty", "x", some 100, some 1⟩,
         ⟨"b", "ty", "y", some 200, some 2⟩] : List BaseEvent).map pairOf) :=
    List.chain'_cons.mpr ⟨by decide, List.chain'_singleton _⟩
  ⟨by decide, hchain, rfl,
    ledger_monotone_single_producer ⟨[], some 1⟩ 0 ⟨[], [], 0⟩
      [⟨"a", "ty", "x", some 100, some 1⟩, ⟨"b", "ty", "y", some 200, some 2⟩]
      (by decide) hchain rfl⟩

/-- C8: single-pair FIFO: one producer sends `m1` and then `m2` sequentially
through the same mailbox (store healthy); a single consumer dequeuing with
`get_message` receives `m1` strictly before `m2`: the first pop deserializes
to `m1` and only the second pop yields `m2`. -/
theorem single_pair_fifo (mb : Mailbox) (m1 m2 : Msg) (now1 now2 : Int)
    (db : DB) (h : mb.queue = []) :
    ∃ db1 db2 : DB,
      mb.send_message m1 now1 db false =
        (.ok none, { mb with queue := [⟨db.next_id, pickle_dumps m1⟩] }, db1) ∧
      Mailbox.send_message { mb with queue := [⟨db.next_id, pickle_dumps m1⟩] }
          m2 now2 db1 false =
        (.ok none,
         { mb with queue := [⟨db.next_id, pickle_dumps m1⟩,
                             ⟨db.next_id + 1, pickle_dumps m2⟩] },
         db2) ∧
      Mailbox.get_message
          { mb with queue := [⟨db.next_id, pickle_dumps m1⟩,
                              ⟨db.next_id + 1, pickle_dumps m2⟩] } =
        some (m1, { mb with queue := [⟨db.next_id + 1, pickle_dumps m2⟩] }) ∧
      Mailbox.get_message { mb with queue := [⟨db.next_id + 1, pickle_dumps m2⟩] } =
        some (m2, { mb with queue := [] }) := by
  obtain ⟨db1, h1, _, hn1⟩ := send_message_commit_shape mb m1 now1 db
  obtain ⟨db2, h2, _, hn2⟩ :=
    send_message_commit_shape { mb with queue := [⟨db.next_id, pickle_dumps m1⟩] }
      m2 now2 db1
  refine ⟨db1, db2, ?_, ?_, rfl, rfl⟩
  · rw [h1, h]; rfl
  · rw [h2, hn1]; rfl

/-- C8 witness: a concrete two-send, two-receive run in FIFO order. -/
theorem single_pair_fifo_witness :
    (Mailbox.queue ⟨[], some 1⟩ = []) ∧
    ∃ db1 db2 : DB,
      Mailbox.send_message ⟨[], some 1⟩ .pyNone 3 ⟨[], [], 0⟩ false =
        (.ok none, (⟨[⟨0, pickle_dumps .pyNone⟩], some 1⟩ : Mailbox), db1) ∧
      Mailbox.send_message ⟨[⟨0, pickle_dumps .pyNone⟩], some 1⟩
          (.other "b") 4 db1 false =
        (.ok none,
         (⟨[⟨0, pickle_dumps .pyNone⟩, ⟨1, pickle_dumps (.other "b")⟩], some 1⟩ : Mailbox),
         db2) ∧
      Mailbox.get_message
          ⟨[⟨0, pickle_dumps .pyNone⟩, ⟨1, pickle_dumps (.other "b")⟩], some 1⟩ =
        some (.pyNone, (⟨[⟨1, pickle_dumps (.other "b")⟩], some 1⟩ : Mailbox)) ∧
      Mailbox.get_message ⟨[⟨1, pickle_dumps (.other "b")⟩], some 1⟩ =
        some (.other "b", (⟨[], some 1⟩ : Mailbox)) :=
  ⟨rfl, single_pair_fifo ⟨[], some 1⟩ .pyNone (.other "b") 3 4 ⟨[], [], 0⟩ rfl⟩
